import Mathlib

/-!
Shallow embedding of the `raspberry` voice-assistant crate
(`src/assistant/src/{intents,wakeword,stt,lib}.rs`) and proofs about it.

f32 values are modelled exactly: a score is `Option ℚ`, where `none` stands
for a non-numeric (NaN) result. Arithmetic on the numeric fragment is exact
rational arithmetic; square roots that are irrational never occur in the
concrete inputs used here, and division by zero only occurs as 0/0 (= NaN)
inside the cosine computation, because a zero magnitude forces a zero dot
product in exact arithmetic.
-/

namespace Raspberry

/-- Model of an `f32` value: `some q` is the exact numeric value `q`,
`none` is NaN (any non-numeric result). -/
abbrev F32 := Option ℚ

/-- f32 addition: NaN-propagating exact addition. -/
def fadd : F32 → F32 → F32
  | some a, some b => some (a + b)
  | _, _ => none

/-- f32 multiplication: NaN-propagating exact multiplication. -/
def fmul : F32 → F32 → F32
  | some a, some b => some (a * b)
  | _, _ => none

/-- f32 division. Division by zero yields the non-numeric element; in
`compute_cosine_distance` (the only caller) the dividend is then also zero,
so this coincides with IEEE 0/0 = NaN on every reachable input. -/
def fdiv : F32 → F32 → F32
  | some a, some b => if b = 0 then none else some (a / b)
  | _, _ => none

/-- f32 square root: NaN on NaN and on negative inputs; exact rational root
otherwise. An irrational root is not exactly representable and is collapsed
to the non-numeric element (such inputs never arise in the concrete
vectors used in this development). -/
def fsqrt : F32 → F32
  | none => none
  | some a =>
    if a < 0 then none
    else
      let n := a.num.toNat
      let d := a.den
      if Nat.sqrt n * Nat.sqrt n = n ∧ Nat.sqrt d * Nat.sqrt d = d then
        some ((Nat.sqrt n : ℚ) / (Nat.sqrt d : ℚ))
      else none

/-- `f32::partial_cmp`: `some` of the total comparison on numeric values,
`none` as soon as NaN is involved. -/
def pcmp : F32 → F32 → Option Ordering
  | some a, some b => some (if a < b then .lt else if a = b then .eq else .gt)
  | _, _ => none

/-- The Rust `<` operator on f32 (`PartialOrd::lt`):
true exactly when `partial_cmp` returns `Some(Less)`; in particular any
comparison with NaN is false. -/
def flt (a b : F32) : Bool :=
  match pcmp a b with
  | some .lt => true
  | _ => false

/-- Rust `core::cmp::max_by`: returns `v2` unless the comparator says
`Greater` (so on `Less` or `Equal` the second argument wins). -/
def cmpMaxBy {α : Type _} (c : α → α → Ordering) (v1 v2 : α) : α :=
  match c v1 v2 with
  | .gt => v1
  | _ => v2

/-- Rust `Iterator::max_by`: `reduce` (left fold over the tail with the head
as the initial accumulator) of `cmp::max_by`; `none` on an empty iterator. -/
def maxBy {α : Type _} (c : α → α → Ordering) : List α → Option α
  | [] => none
  | x :: xs => some (xs.foldl (cmpMaxBy c) x)

/-! ## intents.rs -/

/-- `fastembed::Error` is opaque to this crate; modelled as a unit type. -/
abbrev FastembedError := Unit

/-- Model of `fastembed::TextEmbedding`: its only use in this crate is
`embed`, which maps a batch of texts to one embedding vector per text, or
fails. -/
structure TextEmbedding where
  embed : List String → Except FastembedError (List (List F32))

/-- `EmbeddingModelSource` (intents.rs lines 31-34). Each variant carries
the outcome of the corresponding external constructor call
(`TextEmbedding::try_new` / `try_new_from_user_defined`). -/
inductive EmbeddingModelSource where
  | online (tryNew : Except FastembedError TextEmbedding)
  | localModel (tryNew : Except FastembedError TextEmbedding)

/-- The `match config.model { ... }` in `IntentRecognizer::build`
(intents.rs lines 68-73): run the selected constructor. -/
def EmbeddingModelSource.init : EmbeddingModelSource → Except FastembedError TextEmbedding
  | .online r => r
  | .localModel r => r

/-- `Intent<T>` (intents.rs lines 13-16). -/
structure Intent (T : Type _) where
  id : T
  examples : List String

/-- `IntentsConfig<T>` (intents.rs lines 8-11). -/
structure IntentsConfig (T : Type _) where
  intents : List (Intent T)
  model : EmbeddingModelSource

/-- `ProcessedIntent<T>` (intents.rs lines 36-39). -/
structure ProcessedIntent (T : Type _) where
  id : T
  examples : List (List F32)

/-- `IntentRecognizer<T>` (intents.rs lines 41-44). -/
structure IntentRecognizer (T : Type _) where
  intents : List (ProcessedIntent T)
  model : TextEmbedding

/-- `IntentRecognizerBuildError` (intents.rs lines 46-52). -/
inductive IntentRecognizerBuildError where
  | textEmbeddingError (e : FastembedError)
  | noIntentsProvided
deriving DecidableEq

/-- `IntentRecognizerError` (intents.rs lines 54-60). -/
inductive IntentRecognizerError where
  | textEmbeddingError (e : FastembedError)
  | scoreTooLow
deriving DecidableEq

/-- `compute_cosine_distance` (intents.rs lines 110-115):
`dot(a,b) / (|a| * |b|)`, with dot product and magnitudes as left folds
starting from 0, exactly as `Iterator::sum` computes them. -/
def compute_cosine_distance (a b : List F32) : F32 :=
  let dot_product := (List.zipWith fmul a b).foldl fadd (some 0)
  let magnitude_a := fsqrt ((a.map (fun x => fmul x x)).foldl fadd (some 0))
  let magnitude_b := fsqrt ((b.map (fun x => fmul x x)).foldl fadd (some 0))
  fdiv dot_product (fmul magnitude_a magnitude_b)

/-- `find_closest` (intents.rs lines 117-124): flatten all `(id, example)`
pairs in intent order, score each against `target`, and take
`max_by(|a, b| a.1.partial_cmp(&b.1).unwrap_or(Ordering::Less))`. The
source ends in `.unwrap()`; `none` here models that panic (empty
iterator). -/
def find_closest {T : Type _} (intents : List (ProcessedIntent T)) (target : List F32) :
    Option (T × F32) :=
  maxBy (fun a b => (pcmp a.2 b.2).getD .lt)
    ((intents.flatMap fun i => i.examples.map fun e => (i.id, e)).map
      fun p => (p.1, compute_cosine_distance p.2 target))

/-- `Iterator::collect::<Result<Vec<_>, _>>`: collect the values, stopping
at the first error. -/
def collectExcept {ε β : Type _} : List (Except ε β) → Except ε (List β)
  | [] => .ok []
  | .error e :: _ => .error e
  | .ok b :: rest => (collectExcept rest).map (fun bs => b :: bs)

/-- `IntentRecognizer::build` (intents.rs lines 63-90): reject an empty
intents list, then run the embedding-model constructor, then embed every
intent's example list, collecting the first error. -/
def IntentRecognizer.build {T : Type _} (config : IntentsConfig T) :
    Except IntentRecognizerBuildError (IntentRecognizer T) :=
  if config.intents.isEmpty then
    .error .noIntentsProvided
  else
    match config.model.init with
    | .error e => .error (.textEmbeddingError e)
    | .ok model =>
      match collectExcept (config.intents.map
          (fun intent => (model.embed intent.examples).map
            (fun examples => ProcessedIntent.mk intent.id examples))) with
      | .error e => .error (.textEmbeddingError e)
      | .ok processed => .ok ⟨processed, model⟩

/-- `IntentRecognizer::recognize` (intents.rs lines 92-107). The outer
`Option` models panics: `none` is the `.next().unwrap()` panic (embedding
batch came back empty) or the `find_closest` `.unwrap()` panic (no stored
example vectors). -/
def IntentRecognizer.recognize {T : Type _} (r : IntentRecognizer T) (text : String) :
    Option (Except IntentRecognizerError T) :=
  match r.model.embed [text] with
  | .error e => some (.error (.textEmbeddingError e))
  | .ok embs =>
    match embs.head? with
    | none => none
    | some target =>
      match find_closest r.intents target with
      | none => none
      | some (intent, score) =>
        if flt score (some (1 / 2)) then some (.error .scoreTooLow)
        else some (.ok intent)

/-! ## cpal audio model (shared by wakeword.rs and stt.rs) -/

/-- `cpal::SampleFormat`. -/
inductive SampleFormat where
  | i8 | i16 | i32 | i64 | u8 | u16 | u32 | u64 | f32 | f64
deriving DecidableEq

/-- `cpal::SupportedStreamConfig`: the fields this crate reads. -/
structure SupportedStreamConfig where
  channels : Nat
  sampleRate : Nat
  sampleFormat : SampleFormat
deriving DecidableEq

/-- `cpal::SupportedStreamConfigRange`: the fields this crate reads. -/
structure SupportedStreamConfigRange where
  channels : Nat
  minSampleRate : Nat
  maxSampleRate : Nat
  sampleFormat : SampleFormat
deriving DecidableEq

/-- `SupportedStreamConfigRange::with_sample_rate`. -/
def SupportedStreamConfigRange.withSampleRate (sc : SupportedStreamConfigRange)
    (rate : Nat) : SupportedStreamConfig :=
  ⟨sc.channels, rate, sc.sampleFormat⟩

/-- `SupportedStreamConfigRange::with_max_sample_rate`. -/
def SupportedStreamConfigRange.withMaxSampleRate (sc : SupportedStreamConfigRange) :
    SupportedStreamConfig :=
  ⟨sc.channels, sc.maxSampleRate, sc.sampleFormat⟩

/-- The default input device, as both `WakewordConfig::build` and
`STTConfig::build` observe it: the outcome of `default_input_config()` and
of `supported_input_configs()` (in iteration order). cpal's error payloads
are opaque to this crate and modelled as `Unit`. -/
structure InputDevice where
  defaultInputConfig : Except Unit SupportedStreamConfig
  supportedInputConfigs : Except Unit (List SupportedStreamConfigRange)

/-! ## wakeword.rs -/

/-- `WakewordConfigBuildError` (wakeword.rs lines 20-34), restricted to the
variants the format negotiation can produce. -/
inductive WakewordConfigBuildError where
  | noDefaultInputConfig (e : Unit)
  | listInputConfigs (e : Unit)
  | getSupportedInputConfig
deriving DecidableEq

/-- `is_compatible_format` (wakeword.rs lines 195-200). -/
def is_compatible_format (format : SampleFormat) : Bool :=
  match format with
  | .i16 | .i32 | .f32 => true
  | _ => false

/-- `try_get_config_with_sample_rate` (wakeword.rs lines 202-213). -/
def try_get_config_with_sample_rate (sc : SupportedStreamConfigRange)
    (preferred_sample_rate : Nat) : SupportedStreamConfig :=
  if sc.minSampleRate ≤ preferred_sample_rate ∧
      preferred_sample_rate ≤ sc.maxSampleRate then
    sc.withSampleRate preferred_sample_rate
  else
    sc.withMaxSampleRate

/-- The `input_config` selection of `WakewordConfig::build`
(wakeword.rs lines 59-70): take the device default if its sample format is
compatible, else the first supported configuration with a compatible
format, pushed through `try_get_config_with_sample_rate(_, 16000)`; error
if none. The remainder of `build` (Rustpotter construction) consumes this
configuration unchanged. -/
def WakewordConfig.negotiateInputConfig (dev : InputDevice) :
    Except WakewordConfigBuildError SupportedStreamConfig :=
  match dev.defaultInputConfig with
  | .error e => .error (.noDefaultInputConfig e)
  | .ok default_input_config =>
    if is_compatible_format default_input_config.sampleFormat then
      .ok default_input_config
    else
      match dev.supportedInputConfigs with
      | .error e => .error (.listInputConfigs e)
      | .ok scs =>
        match scs.find? (fun sc => is_compatible_format sc.sampleFormat) with
        | some sc => .ok (try_get_config_with_sample_rate sc 16000)
        | none => .error .getSupportedInputConfig

/-- `run_detection`'s `while` loop (wakeword.rs lines 247-258), on an
abstract Rustpotter model `step : R → List S → R × Option String`
(`process_samples` on one frame: new model state and an optional
detection). Returns the final model state, the leftover buffer, the frames
passed to `process_samples` in call order, and the detection names sent on
`tx` in order. The `0 < n` conjunct in the guard only rules out the
degenerate `n = 0`, where the source loop would not terminate;
`rustpotter.get_samples_per_frame()` is positive. -/
def detectLoop {R S : Type _} (n : Nat) (step : R → List S → R × Option String)
    (r : R) (buffer : List S) : R × List S × List (List S) × List String :=
  if _h : n ≤ buffer.length ∧ 0 < n then
    let frame := buffer.take n
    let rest := buffer.drop n
    let st := step r frame
    let out := detectLoop n step st.1 rest
    (out.1, out.2.1, frame :: out.2.2.1,
      match st.2 with
      | some name => name :: out.2.2.2
      | none => out.2.2.2)
  else
    (r, buffer, [], [])
termination_by buffer.length
decreasing_by
  simp only [List.length_drop]
  omega

/-- `run_detection` (wakeword.rs lines 239-259): append the delivered chunk
to the buffer (`extend_from_slice`), then drain and score one frame per
iteration while at least one frame is buffered. -/
def run_detection {R S : Type _} (n : Nat) (step : R → List S → R × Option String)
    (r : R) (data buffer : List S) : R × List S × List (List S) × List String :=
  detectLoop n step r (buffer ++ data)

/-- A sequence of chunk deliveries into the wakeword data callback: fold
`run_detection` over the chunks, threading model state and buffer and
accumulating the scored frames and sent detections. -/
def feedChunks {R S : Type _} (n : Nat) (step : R → List S → R × Option String)
    (r : R) (buffer : List S) : List (List S) → R × List S × List (List S) × List String
  | [] => (r, buffer, [], [])
  | data :: rest =>
    let out := run_detection n step r data buffer
    let outs := feedChunks n step out.1 out.2.1 rest
    (outs.1, outs.2.1, out.2.2.1 ++ outs.2.2.1, out.2.2.2 ++ outs.2.2.2)

/-! ## stt.rs -/

/-- `STTConfigError` (stt.rs lines 16-26), restricted to the variants the
format negotiation can produce. -/
inductive STTConfigError where
  | failedGetDefaultInputConfig (e : Unit)
  | failedListInputConfigs (e : Unit)
  | failedGetSupportedInputConfig
deriving DecidableEq

/-- The `input_config` selection of `STTConfig::build` (stt.rs lines
35-53): take the device default if it is `I16` and single-channel, else
the first supported configuration that is `I16`, single-channel, and whose
rate range contains 16000, at rate 16000; error if none. -/
def STTConfig.negotiateInputConfig (dev : InputDevice) :
    Except STTConfigError SupportedStreamConfig :=
  match dev.defaultInputConfig with
  | .error e => .error (.failedGetDefaultInputConfig e)
  | .ok default_input_config =>
    if default_input_config.sampleFormat = .i16 ∧
        default_input_config.channels = 1 then
      .ok default_input_config
    else
      match dev.supportedInputConfigs with
      | .error e => .error (.failedListInputConfigs e)
      | .ok scs =>
        match scs.find? (fun sc =>
            sc.sampleFormat == .i16 && sc.channels == 1 &&
            sc.minSampleRate ≤ 16000 && 16000 ≤ sc.maxSampleRate) with
        | some sc => .ok (sc.withSampleRate 16000)
        | none => .error .failedGetSupportedInputConfig

/-- `RecognitionResult` (stt.rs lines 79-84). -/
inductive RecognitionResult where
  | final (text : String)
  | failed
  | cancelled
deriving DecidableEq

/-- `vosk::DecodingState` as reported by `accept_waveform` for one chunk;
`finalized` carries the transcript that `recognizer.result()` would then
yield. -/
inductive DecodingState where
  | finalized (text : String)
  | failed
  | running
deriving DecidableEq

/-- One execution of the `data_callback` in `init_stream` (stt.rs lines
143-156), given the decoder state reported for this chunk and the
milliseconds elapsed since `start_time`: the `RecognitionResult` sent on
`tx`, if any. `Instant::elapsed().as_secs()` truncates to whole seconds,
hence the `elapsedMs / 1000`. -/
def sttChunkOutcome (state : DecodingState) (elapsedMs : Nat) :
    Option RecognitionResult :=
  match state with
  | .finalized text => some (.final text)
  | .failed => some .failed
  | .running =>
    if elapsedMs / 1000 > 20 then some .cancelled else none

/-- A recognition session over a trace of chunk deliveries (decoder state
reported, milliseconds elapsed at delivery): `recognize` blocks on
`rx.recv()`, so the session outcome is the first result sent by any chunk;
`none` if no chunk ever sends one. -/
def sessionOutcome : List (DecodingState × Nat) → Option RecognitionResult
  | [] => none
  | (s, t) :: rest =>
    match sttChunkOutcome s t with
    | some r => some r
    | none => sessionOutcome rest

/-- `RecognitionError` (stt.rs lines 86-94). -/
inductive RecognitionError where
  | failedCreateRecognizer
  | failedReceiveResult
  | failedPlayStream (e : Unit)
deriving DecidableEq

/-! ## lib.rs -/

/-- `AssistantListenSuccessfulWakewordError` (lib.rs lines 108-118). -/
inductive AssistantListenSuccessfulWakewordError where
  | speechRecognitionInitializationError (e : RecognitionError)
  | speechRecognitionError
  | speechRecognitionTimeout
  | intentRecognizerError (e : IntentRecognizerError)
deriving DecidableEq

/-- `AssistantListenError` (lib.rs lines 120-126). -/
inductive AssistantListenError where
  | wakewordRecvError
  | processError (wakeword : String) (e : AssistantListenSuccessfulWakewordError)
deriving DecidableEq

/-- `AssistantQuery` (lib.rs lines 208-211), with the intent reference
modelled by value. -/
structure AssistantQuery (T : Type _) where
  wakeword : String
  intent : Option T
deriving DecidableEq

/-- The environment of one wakeword event delivered to `Assistant::listen`:
the detected name, the synthesizer answer `tts.is_speaking()` would give at
that moment (`none` models `Err`), and the outcome a fresh
`STTSentenceRecognizer::recognize()` session would produce if one were
opened now. -/
structure ListenEvent where
  name : String
  isSpeaking : Option Bool
  sttResult : Except RecognitionError RecognitionResult

/-- One arrival on the wakeword channel: an event, or the channel
disconnecting (`RecvError`). -/
inductive WakewordStreamEvent where
  | ev (e : ListenEvent)
  | disconnect

/-- Observable side effects of a `listen` call, in order: opening a speech
recognition session for a given triggering wakeword, or blocking in
`finish_speaking` until the synthesizer is quiet. -/
inductive ListenAction where
  | sttSession (wakeword : String)
  | finishSpeaking
deriving DecidableEq

/-- Terminal behaviour of `Assistant::listen`: a returned
`Result`, blocking forever on `rx.recv()` (trace exhausted), or a panic
inside `IntentRecognizer::recognize`. -/
inductive ListenOutcome (T : Type _) where
  | result (r : Except AssistantListenError (AssistantQuery T))
  | blocked
  | panicked

/-- `Assistant::listen` (lib.rs lines 138-194) over a trace of wakeword
channel arrivals: receive a wakeword; on `is_speaking()` error, fail the
cycle; while speaking, call `finish_speaking` (result ignored) and recurse
(`self.listen()`), consuming further events; if the name is not in
`wakewords_listen`, succeed with no intent; otherwise run a speech
recognition session and then `IntentRecognizer::recognize` on a final
transcript, mapping each failure to `ProcessError` tagged with the
wakeword. Also returns the list of performed `ListenAction`s. -/
def listen {T : Type _} (wl : List String) (ir : IntentRecognizer T) :
    List WakewordStreamEvent → ListenOutcome T × List ListenAction
  | [] => (.blocked, [])
  | .disconnect :: _ => (.result (.error .wakewordRecvError), [])
  | .ev e :: rest =>
    match e.isSpeaking with
    | none =>
      (.result (.error (.processError e.name .speechRecognitionError)), [])
    | some true =>
      let out := listen wl ir rest
      (out.1, .finishSpeaking :: out.2)
    | some false =>
      if e.name ∈ wl then
        match e.sttResult with
        | .error err =>
          (.result (.error (.processError e.name
            (.speechRecognitionInitializationError err))), [.sttSession e.name])
        | .ok (.final text) =>
          match ir.recognize text with
          | none => (.panicked, [.sttSession e.name])
          | some (.error ie) =>
            (.result (.error (.processError e.name (.intentRecognizerError ie))),
              [.sttSession e.name])
          | some (.ok id) =>
            (.result (.ok ⟨e.name, some id⟩), [.sttSession e.name])
        | .ok .failed =>
          (.result (.error (.processError e.name .speechRecognitionError)),
            [.sttSession e.name])
        | .ok .cancelled =>
          (.result (.error (.processError e.name .speechRecognitionTimeout)),
            [.sttSession e.name])
      else
        (.result (.ok ⟨e.name, none⟩), [])

/-! ## Concrete instances used in witnesses and counterexamples -/

/-- An embedding model that always succeeds, mapping every text to the
one-dimensional vector `[1.0]`. -/
def goodModel : TextEmbedding := ⟨fun ts => .ok (ts.map fun _ => [some 1])⟩

/-- A config with one intent but a failing embedding-model constructor. -/
def badModelConfig : IntentsConfig Nat := ⟨[⟨0, ["hi"]⟩], .online (.error ())⟩

/-- A config whose first intent has an empty example list. -/
def cfgEmptyExamples : IntentsConfig Nat :=
  ⟨[⟨0, []⟩, ⟨1, ["a"]⟩], .online (.ok goodModel)⟩

/-- A config whose every intent has an empty example list. -/
def cfgAllEmpty : IntentsConfig Nat := ⟨[⟨0, []⟩], .online (.ok goodModel)⟩

/-- The recognizer `build cfgAllEmpty` produces: no example vectors at all. -/
def rAllEmpty : IntentRecognizer Nat := ⟨[⟨0, []⟩], goodModel⟩

/-- A recognizer with a single stored example vector `[1.0]`. -/
def rOneExample : IntentRecognizer Nat := ⟨[⟨0, [[some 1]]⟩], goodModel⟩

/-- A recognizer whose only stored example is the zero vector, so its
cosine score against any query is NaN. -/
def rZeroVec : IntentRecognizer Nat := ⟨[⟨0, [[some 0]]⟩], goodModel⟩

/-- Two intents with identical example vectors: both score 1 against the
target `[1.0]`. -/
def tieIntents : List (ProcessedIntent Nat) := [⟨0, [[some 1]]⟩, ⟨1, [[some 1]]⟩]

/-- Intent 0 scores 1 against `[1.0]`; intent 1 holds the zero vector and
scores NaN. -/
def nanIntents : List (ProcessedIntent Nat) := [⟨0, [[some 1]]⟩, ⟨1, [[some 0]]⟩]

/-- A device whose default input config is two-channel I16 at 44100 Hz. -/
def devStereoDefault : InputDevice := ⟨.ok ⟨2, 44100, .i16⟩, .ok []⟩

/-- A device whose default is single-channel F32 at 48000 Hz and whose only
supported range is F32. -/
def devF32Mono : InputDevice := ⟨.ok ⟨1, 48000, .f32⟩, .ok [⟨1, 8000, 96000, .f32⟩]⟩

/-- A device whose default is single-channel I16 at 16000 Hz. -/
def devI16Mono : InputDevice := ⟨.ok ⟨1, 16000, .i16⟩, .ok []⟩

/-- A device with an incompatible F64 default whose supported ranges are an
F64 one followed by a stereo I32 one not containing 16000 Hz. -/
def devFallback : InputDevice :=
  ⟨.ok ⟨1, 44100, .f64⟩, .ok [⟨1, 8000, 48000, .f64⟩, ⟨2, 22050, 48000, .i32⟩]⟩

/-- A listen event whose wakeword arrives while the synthesizer is
speaking. -/
def speakingEvent : ListenEvent := ⟨"pizza", some true, .ok (.final "hi")⟩

/-- Specification-side view of one `cmp::max_by` step on numerically
comparable scores with key `k`: the accumulator survives only when its key
is strictly greater than the new candidate's. -/
def maxStep {α : Type _} (k : α → ℚ) (acc y : α) : α := if k y < k acc then acc else y

/-! ## Generic helper lemmas -/

theorem isOk_ok {ε β : Type _} (b : β) : (Except.ok b : Except ε β).isOk = true := rfl

theorem isOk_error {ε β : Type _} (e : ε) : (Except.error e : Except ε β).isOk = false := rfl

theorem except_map_isOk {ε α β : Type _} (f : α → β) (x : Except ε α) :
    (x.map f).isOk = x.isOk := by
  cases x <;> rfl

theorem collectExcept_isOk_iff {ε β : Type _} :
    ∀ l : List (Except ε β), (collectExcept l).isOk = true ↔ ∀ x ∈ l, x.isOk = true := by
  intro l
  induction l with
  | nil => simp [collectExcept, isOk_ok]
  | cons x rest ih =>
    cases x with
    | error e => simp [collectExcept, isOk_error]
    | ok b => simp [collectExcept, except_map_isOk, ih, isOk_ok]

theorem flt_some_false_iff (q c : ℚ) : flt (some q) (some c) = false ↔ ¬ q < c := by
  simp only [flt, pcmp]
  by_cases h1 : q < c
  · rw [if_pos h1]
    simp [h1]
  · rw [if_neg h1]
    by_cases h2 : q = c
    · rw [if_pos h2]
      simp [h1]
    · rw [if_neg h2]
      simp [h1]

/-- Cosine of the one-dimensional unit vector with itself is exactly 1. -/
theorem cos_one_one : compute_cosine_distance [some 1] [some 1] = some 1 := by
  unfold compute_cosine_distance
  simp only [List.zipWith, List.map, List.foldl, fadd, fmul]
  norm_num [fsqrt, fdiv]

/-- Cosine of the one-dimensional zero vector with the unit vector is NaN
(0/0). -/
theorem cos_zero_one : compute_cosine_distance [some 0] [some 1] = none := by
  unfold compute_cosine_distance
  simp only [List.zipWith, List.map, List.foldl, fadd, fmul]
  norm_num [fsqrt, fdiv]

/-- `build` returns `NoIntentsProvided` exactly on an empty intents list. -/
theorem build_error_noIntents_iff {T : Type _} (config : IntentsConfig T) :
    IntentRecognizer.build config = .error .noIntentsProvided ↔ config.intents = [] := by
  unfold IntentRecognizer.build
  split
  next hemp =>
    rw [List.isEmpty_iff] at hemp
    simp [hemp]
  next hemp =>
    rw [List.isEmpty_iff] at hemp
    split
    next e hinit =>
      constructor
      · intro h; simp at h
      · intro h; exact absurd h hemp
    next m hinit =>
      split
      next e hcol =>
        constructor
        · intro h; simp at h
        · intro h; exact absurd h hemp
      next processed hcol =>
        constructor
        · intro h; simp at h
        · intro h; exact absurd h hemp

/-- `build` succeeds exactly when the intents list is non-empty, the model
constructor succeeds, and every intent's examples embed successfully. -/
theorem build_isOk_iff {T : Type _} (config : IntentsConfig T) :
    (IntentRecognizer.build config).isOk = true ↔
      config.intents ≠ [] ∧ ∃ m, config.model.init = .ok m ∧
        ∀ i ∈ config.intents, (m.embed i.examples).isOk = true := by
  unfold IntentRecognizer.build
  split
  next hemp =>
    rw [List.isEmpty_iff] at hemp
    simp [hemp, isOk_error]
  next hemp =>
    rw [List.isEmpty_iff] at hemp
    split
    next e hinit =>
      simp only [isOk_error, Bool.false_eq_true, false_iff]
      rintro ⟨-, m', hm', -⟩
      rw [hinit] at hm'
      cases hm'
    next m hinit =>
      split
      next e hcol =>
        simp only [isOk_error, Bool.false_eq_true, false_iff]
        rintro ⟨-, m', hm', hall⟩
        rw [hinit] at hm'
        cases hm'
        have hok : (collectExcept (config.intents.map
            (fun intent => (m.embed intent.examples).map
              (fun examples => ProcessedIntent.mk intent.id examples)))).isOk = true := by
          rw [collectExcept_isOk_iff]
          intro x hx
          rw [List.mem_map] at hx
          obtain ⟨i, hi, rfl⟩ := hx
          rw [except_map_isOk]
          exact hall i hi
        rw [hcol] at hok
        simp [isOk_error] at hok
      next processed hcol =>
        simp only [isOk_ok, true_iff]
        refine ⟨hemp, m, hinit, ?_⟩
        intro i hi
        have hall := (collectExcept_isOk_iff _).mp (by rw [hcol]; rfl)
        have := hall _ (List.mem_map_of_mem _ hi)
        rwa [except_map_isOk] at this

/-! ## C1 -/

/-- C1 (amended): `IntentRecognizer::build` fails with `NoIntentsProvided`
if and only if the config's intents list is empty, independent of the
embedding model; on a non-empty intents list it succeeds if and only if
the embedding model initializes and embeds every intent's example list
successfully. -/
theorem build_failure_characterization {T : Type _} (config : IntentsConfig T) :
    (IntentRecognizer.build config = .error .noIntentsProvided ↔ config.intents = []) ∧
    ((IntentRecognizer.build config).isOk = true ↔
      config.intents ≠ [] ∧ ∃ m, config.model.init = .ok m ∧
        ∀ i ∈ config.intents, (m.embed i.examples).isOk = true) :=
  ⟨build_error_noIntents_iff config, build_isOk_iff config⟩

/-- C1 counterexample: a config with a non-empty intents list whose
embedding-model constructor fails makes `build` fail, contradicting
"for every embedding model, build on a non-empty intents list
succeeds". -/
theorem build_nonempty_can_fail :
    badModelConfig.intents ≠ [] ∧
    IntentRecognizer.build badModelConfig = .error (.textEmbeddingError ()) :=
  ⟨by simp [badModelConfig], rfl⟩

/-! ## C3 -/

/-- C3 (amended): construction fails when given zero intents, but there is
no per-intent example check: every config whose embedding model
initializes and embeds successfully builds, including configs containing
intents with empty example lists. -/
theorem build_accepts_intent_with_empty_examples {T : Type _} (config : IntentsConfig T)
    (m : TextEmbedding)
    (hne : config.intents ≠ [])
    (hinit : config.model.init = .ok m)
    (hembed : ∀ i ∈ config.intents, (m.embed i.examples).isOk = true)
    (_hempty : ∃ i ∈ config.intents, i.examples = []) :
    (IntentRecognizer.build config).isOk = true :=
  (build_isOk_iff config).mpr ⟨hne, m, hinit, hembed⟩

/-- C3 witness: `cfgEmptyExamples` has an intent with an empty example list
and a model that embeds successfully, and builds. -/
theorem build_accepts_intent_with_empty_examples_witness :
    (cfgEmptyExamples.intents ≠ [] ∧ ∃ i ∈ cfgEmptyExamples.intents, i.examples = []) ∧
    (IntentRecognizer.build cfgEmptyExamples).isOk = true :=
  ⟨⟨by simp [cfgEmptyExamples], ⟨0, []⟩, by simp [cfgEmptyExamples], rfl⟩,
    build_accepts_intent_with_empty_examples cfgEmptyExamples goodModel
      (by simp [cfgEmptyExamples]) rfl (by decide)
      ⟨⟨0, []⟩, by simp [cfgEmptyExamples], rfl⟩⟩

/-- C3 counterexample: `cfgAllEmpty` contains an intent with an empty
example list, yet `build` succeeds rather than returning an error. -/
theorem build_empty_examples_not_rejected :
    (∃ i ∈ cfgAllEmpty.intents, i.examples = []) ∧
    (IntentRecognizer.build cfgAllEmpty).isOk = true :=
  ⟨⟨⟨0, []⟩, by simp [cfgAllEmpty], rfl⟩, rfl⟩

/-! ## C10 -/

theorem maxBy_eq_none_iff {α : Type _} (c : α → α → Ordering) (l : List α) :
    maxBy c l = none ↔ l = [] := by
  cases l <;> simp [maxBy]

/-- If some stored intent has at least one example vector, `find_closest`
cannot hit its `.unwrap()` panic. -/
theorem find_closest_ne_none {T : Type _} (intents : List (ProcessedIntent T))
    (target : List F32) (h : ∃ i ∈ intents, i.examples ≠ []) :
    find_closest intents target ≠ none := by
  obtain ⟨i, hi, hne⟩ := h
  obtain ⟨e, he⟩ : ∃ e, e ∈ i.examples := by
    cases hex : i.examples with
    | nil => exact absurd hex hne
    | cons a as => exact ⟨a, hex ▸ List.mem_cons_self a as⟩
  have hmem : (i.id, e) ∈ intents.flatMap (fun i => i.examples.map fun e => (i.id, e)) :=
    List.mem_flatMap.mpr ⟨i, hi, List.mem_map_of_mem _ he⟩
  unfold find_closest
  rw [Ne, maxBy_eq_none_iff, List.map_eq_nil_iff]
  exact fun hnil => absurd (hnil ▸ hmem) (List.not_mem_nil _)

/-- C10: whenever at least one stored intent holds at least one example
embedding and the embedding model returns one vector per input text, the
`unwrap`s in `recognize` are unreachable, so `recognize` returns a result
or an error without panicking; and this precondition is not established by
`build`, which accepts `cfgAllEmpty` (whose every intent has an empty
example list) and produces a recognizer whose `recognize` panics. -/
theorem recognize_panic_freedom_and_build_gap :
    (∀ (T : Type) (r : IntentRecognizer T) (text : String),
        (∃ i ∈ r.intents, i.examples ≠ []) →
        (∀ ts out, r.model.embed ts = .ok out → out.length = ts.length) →
        r.recognize text ≠ none) ∧
    (IntentRecognizer.build cfgAllEmpty).isOk = true ∧
    (∀ r', IntentRecognizer.build cfgAllEmpty = .ok r' → r'.recognize "x" = none) := by
  refine ⟨?_, rfl, ?_⟩
  · intro T r text hex hlen
    unfold IntentRecognizer.recognize
    split
    next e hemb => simp
    next out hemb =>
      split
      next hhead =>
        have h1 : out.length = 1 := hlen _ _ hemb
        rw [List.head?_eq_none_iff] at hhead
        rw [hhead] at h1
        simp at h1
      next target hhead =>
        split
        next hfc => exact absurd hfc (find_closest_ne_none _ _ hex)
        next p hfc =>
          split <;> simp
  · intro r' h
    have hb : IntentRecognizer.build cfgAllEmpty = .ok rAllEmpty := rfl
    rw [hb] at h
    cases h
    rfl

/-- C10 witness: a recognizer holding one example vector, on which
`recognize` does not panic. -/
theorem recognize_panic_freedom_witness :
    (∃ i ∈ rOneExample.intents, i.examples ≠ []) ∧
    rOneExample.recognize "hello" ≠ none :=
  ⟨⟨⟨0, [[some 1]]⟩, by simp [rOneExample], by simp⟩,
    recognize_panic_freedom_and_build_gap.1 Nat rOneExample "hello"
      ⟨⟨0, [[some 1]]⟩, by simp [rOneExample], by simp⟩
      (by
        intro ts out h
        simp only [rOneExample, goodModel] at h
        cases h
        simp)⟩

/-! ## C2 -/

theorem foldl_maxStep_split {α : Type _} (k : α → ℚ) :
    ∀ (xs : List α) (x : α), ∃ pre post,
      x :: xs = pre ++ (xs.foldl (maxStep k) x) :: post ∧
      (∀ p ∈ pre, k p ≤ k (xs.foldl (maxStep k) x)) ∧
      (∀ p ∈ post, k p < k (xs.foldl (maxStep k) x)) := by
  intro xs
  induction xs with
  | nil => exact fun x => ⟨[], [], rfl, by simp, by simp⟩
  | cons y ys ih =>
    intro x
    rw [List.foldl_cons]
    by_cases hxy : k y < k x
    · have hstep : maxStep k x y = x := if_pos hxy
      rw [hstep]
      obtain ⟨pre, post, hsplit, hpre, hpost⟩ := ih x
      cases pre with
      | nil =>
        rw [List.nil_append] at hsplit
        obtain ⟨hr, hpost'⟩ := List.cons.inj hsplit
        refine ⟨[], y :: ys, ?_, by simp, ?_⟩
        · rw [List.nil_append, ← hr]
        · intro p hp
          rcases List.mem_cons.mp hp with rfl | hp
          · rw [← hr]; exact hxy
          · rw [hpost'] at hp
            exact hpost p hp
      | cons p0 pre' =>
        rw [List.cons_append] at hsplit
        obtain ⟨hp0, htail⟩ := List.cons.inj hsplit
        subst hp0
        refine ⟨x :: y :: pre', post, ?_, ?_, hpost⟩
        · rw [List.cons_append, List.cons_append, ← htail]
        · intro p hp
          rcases List.mem_cons.mp hp with rfl | hp
          · exact hpre p (List.mem_cons_self _ _)
          · rcases List.mem_cons.mp hp with rfl | hp
            · exact le_trans (le_of_lt hxy) (hpre x (List.mem_cons_self _ _))
            · exact hpre p (List.mem_cons_of_mem _ hp)
    · have hstep : maxStep k x y = y := if_neg hxy
      rw [hstep]
      have hxley : k x ≤ k y := le_of_not_lt hxy
      obtain ⟨pre, post, hsplit, hpre, hpost⟩ := ih y
      refine ⟨x :: pre, post, ?_, ?_, hpost⟩
      · rw [List.cons_append, ← hsplit]
      · intro p hp
        rcases List.mem_cons.mp hp with rfl | hp
        · have hy : k y ≤ k (List.foldl (maxStep k) y ys) := by
            cases pre with
            | nil =>
              rw [List.nil_append] at hsplit
              obtain ⟨hr, -⟩ := List.cons.inj hsplit
              rw [← hr]
            | cons q0 pre' =>
              rw [List.cons_append] at hsplit
              obtain ⟨hq0, -⟩ := List.cons.inj hsplit
              exact (congrArg k hq0).le.trans (hpre q0 (List.mem_cons_self _ _))
          exact le_trans hxley hy
        · exact hpre p hp

/-- On numerically comparable scores, the `max_by` comparator step of
`find_closest` behaves as `maxStep` on the rational keys. -/
theorem cmpMaxBy_emb {T : Type _} (a b : T × ℚ) :
    cmpMaxBy (fun x y : T × F32 => (pcmp x.2 y.2).getD .lt) (a.1, some a.2) (b.1, some b.2)
      = ((maxStep Prod.snd a b).1, some (maxStep Prod.snd a b).2) := by
  simp only [cmpMaxBy, pcmp, Option.getD, maxStep]
  rcases lt_trichotomy b.2 a.2 with h | h | h
  · rw [if_neg (asymm h), if_neg (ne_of_gt h), if_pos h]
  · rw [if_neg (h ▸ lt_irrefl b.2), if_pos h.symm, if_neg (h ▸ lt_irrefl b.2)]
  · rw [if_pos h, if_neg (asymm h)]

theorem foldl_cmpMaxBy_map {T : Type _} :
    ∀ (qs : List (T × ℚ)) (x : T × ℚ),
      (qs.map (fun p => ((p.1, some p.2) : T × F32))).foldl
          (cmpMaxBy (fun a b : T × F32 => (pcmp a.2 b.2).getD .lt)) (x.1, some x.2)
        = ((qs.foldl (maxStep Prod.snd) x).1, some (qs.foldl (maxStep Prod.snd) x).2) := by
  intro qs
  induction qs with
  | nil => intro x; rfl
  | cons q qt ih =>
    intro x
    rw [List.map_cons, List.foldl_cons, List.foldl_cons, cmpMaxBy_emb]
    exact ih (maxStep Prod.snd x q)

/-- C2 (amended): in `find_closest`'s `max_by`, the comparator fallback
`unwrap_or(Less)` makes the ACCUMULATED candidate lose: on numerically
equal maximal scores the LATEST maximal example wins (not the earliest),
and a comparison involving an undefined (NaN) score also resolves to the
incoming (later) candidate. Concretely: when all scores are numeric, the
returned example is the last one attaining the maximum (everything before
it scores ≤, everything after it scores strictly <); and one comparator
step on a NaN-involved pair always keeps the second argument. -/
theorem find_closest_latest_max {T : Type _} (intents : List (ProcessedIntent T))
    (target : List F32) (qs : List (T × ℚ))
    (hqs : (intents.flatMap fun i => i.examples.map fun e => (i.id, e)).map
        (fun p => (p.1, compute_cosine_distance p.2 target))
      = qs.map (fun p => ((p.1, some p.2) : T × F32)))
    (hne : qs ≠ []) :
    (∃ best pre post, qs = pre ++ best :: post ∧
        find_closest intents target = some (best.1, some best.2) ∧
        (∀ p ∈ pre, p.2 ≤ best.2) ∧
        (∀ p ∈ post, p.2 < best.2)) ∧
    (∀ a b : T × F32, pcmp a.2 b.2 = none →
        cmpMaxBy (fun x y : T × F32 => (pcmp x.2 y.2).getD .lt) a b = b) := by
  constructor
  · cases qs with
    | nil => exact absurd rfl hne
    | cons q qt =>
      obtain ⟨pre, post, hsplit, hpre, hpost⟩ := foldl_maxStep_split Prod.snd qt q
      refine ⟨qt.foldl (maxStep Prod.snd) q, pre, post, hsplit, ?_, hpre, hpost⟩
      unfold find_closest
      rw [hqs, List.map_cons]
      show some _ = _
      rw [foldl_cmpMaxBy_map]
  · intro a b h
    simp [cmpMaxBy, h]

/-- C2 witness: a single numeric example, on which the characterization
applies with the trivial decomposition. -/
theorem find_closest_latest_max_witness :
    (∃ best pre post, [((0 : Nat), (1 : ℚ))] = pre ++ best :: post ∧
        find_closest [(⟨0, [[some 1]]⟩ : ProcessedIntent Nat)] [some 1]
          = some (best.1, some best.2) ∧
        (∀ p ∈ pre, p.2 ≤ best.2) ∧
        (∀ p ∈ post, p.2 < best.2)) ∧
    (∀ a b : Nat × F32, pcmp a.2 b.2 = none →
        cmpMaxBy (fun x y : Nat × F32 => (pcmp x.2 y.2).getD .lt) a b = b) :=
  find_closest_latest_max [⟨0, [[some 1]]⟩] [some 1] [(0, 1)]
    (by simp [cos_one_one]) (by simp)

/-- C2 counterexample: with two identical (hence tied maximal) example
vectors owned by intents 0 and 1, `find_closest` returns the LATER
intent 1, not the earliest-encountered maximal example; and an example
whose score is NaN (the zero vector) displaces an earlier numeric
maximum. -/
theorem find_closest_earliest_does_not_win :
    find_closest tieIntents [some 1] = some (1, some 1) ∧
    find_closest nanIntents [some 1] = some (1, none) :=
  ⟨by simp [find_closest, tieIntents, maxBy, cmpMaxBy, pcmp, cos_one_one],
   by simp [find_closest, nanIntents, maxBy, cmpMaxBy, pcmp, cos_one_one, cos_zero_one]⟩

/-! ## C6 -/

/-- C6 (amended): `recognize` rejects with `ScoreTooLow` exactly when the
winning score compares strictly below 0.5 under f32 `<`; since every
comparison with NaN is false, acceptance means the winning score is
numeric and ≥ 0.5 OR is NaN — a non-numeric winning score is accepted,
not rejected. -/
theorem recognize_threshold {T : Type _} (r : IntentRecognizer T) (text : String)
    (embs : List (List F32)) (target : List F32) (intent : T) (score : F32)
    (hemb : r.model.embed [text] = .ok embs)
    (hhead : embs.head? = some target)
    (hfind : find_closest r.intents target = some (intent, score)) :
    (r.recognize text = some (.ok intent) ↔ flt score (some (1 / 2)) = false) ∧
    (r.recognize text = some (.error .scoreTooLow) ↔ flt score (some (1 / 2)) = true) ∧
    (flt score (some (1 / 2)) = false ↔ ∀ q, score = some q → 1 / 2 ≤ q) := by
  have hrec : r.recognize text =
      if flt score (some (1 / 2)) then some (.error .scoreTooLow) else some (.ok intent) := by
    unfold IntentRecognizer.recognize
    simp only [hemb, hhead, hfind]
  refine ⟨?_, ?_, ?_⟩
  · rw [hrec]
    cases hflt : flt score (some (1 / 2)) <;> simp
  · rw [hrec]
    cases hflt : flt score (some (1 / 2)) <;> simp
  · cases score with
    | none =>
      simp only [flt, pcmp]
      constructor
      · intro _ q hq
        cases hq
      · intro _
        trivial
    | some q =>
      rw [flt_some_false_iff]
      constructor
      · intro h q' hq'
        cases hq'
        exact le_of_not_lt h
      · intro h
        exact not_lt.mpr (h q rfl)

/-- C6 witness: a winning score of exactly 1 is accepted. -/
theorem recognize_threshold_witness :
    rOneExample.recognize "a" = some (.ok 0) ∧ flt (some 1) (some (1 / 2)) = false :=
  ⟨(recognize_threshold rOneExample "a" [[some 1]] [some 1] 0 (some 1)
      rfl rfl (by simp [find_closest, rOneExample, maxBy, cos_one_one])).1.mpr
      ((flt_some_false_iff 1 (1 / 2)).mpr (by norm_num)),
    (flt_some_false_iff 1 (1 / 2)).mpr (by norm_num)⟩

/-- C6 counterexample: the zero example vector yields a NaN winning score
(not ≥ 0.5), yet `recognize` accepts and returns the intent, contradicting
"a classification is accepted only if the best score is ≥ 0.5 (including
when the winning score is not a number)". -/
theorem recognize_accepts_nan_score :
    find_closest rZeroVec.intents [some 1] = some (0, none) ∧
    rZeroVec.recognize "x" = some (.ok 0) :=
  ⟨by simp [find_closest, rZeroVec, maxBy, cos_zero_one],
   by simp [IntentRecognizer.recognize, rZeroVec, goodModel, find_closest, maxBy,
      cos_zero_one, flt, pcmp]⟩

/-! ## C4 -/

theorem find?_append_first {α : Type _} (p : α → Bool) (pre : List α) (sc : α)
    (post : List α) (hpre : ∀ x ∈ pre, p x = false) (hsc : p sc = true) :
    (pre ++ sc :: post).find? p = some sc := by
  induction pre with
  | nil =>
    rw [List.nil_append]
    exact List.find?_cons_of_pos _ hsc
  | cons a as ih =>
    rw [List.cons_append, List.find?_cons_of_neg]
    · exact ih fun x hx => hpre x (List.mem_cons_of_mem _ hx)
    · simp [hpre a (List.mem_cons_self _ _)]

/-- C4 (amended): `WakewordConfig::build` selects the device default if and
only if the default's sample format is accepted (I16/I32/F32) — the channel
count is NOT checked; otherwise it selects the first supported
configuration whose sample format is accepted (channel count and rate
range NOT checked), at 16000 Hz when the supported rate range contains
16000 and at the range's MAXIMUM rate otherwise; it fails exactly when no
supported configuration has an accepted sample format. -/
theorem wakeword_negotiation (dev : InputDevice) (d : SupportedStreamConfig)
    (scs : List SupportedStreamConfigRange)
    (hd : dev.defaultInputConfig = .ok d)
    (hs : dev.supportedInputConfigs = .ok scs) :
    (is_compatible_format d.sampleFormat = true →
        WakewordConfig.negotiateInputConfig dev = .ok d) ∧
    (is_compatible_format d.sampleFormat = false →
      ((∀ sc ∈ scs, is_compatible_format sc.sampleFormat = false) →
          WakewordConfig.negotiateInputConfig dev = .error .getSupportedInputConfig) ∧
      (∀ pre sc post, scs = pre ++ sc :: post →
          (∀ x ∈ pre, is_compatible_format x.sampleFormat = false) →
          is_compatible_format sc.sampleFormat = true →
          WakewordConfig.negotiateInputConfig dev =
            .ok (if sc.minSampleRate ≤ 16000 ∧ 16000 ≤ sc.maxSampleRate
                then sc.withSampleRate 16000
                else sc.withMaxSampleRate))) := by
  unfold WakewordConfig.negotiateInputConfig
  simp only [hd, hs]
  constructor
  · intro hc
    rw [if_pos hc]
  · intro hc
    rw [if_neg (by simp [hc])]
    constructor
    · intro hall
      rw [List.find?_eq_none.mpr (by intro x hx; simp [hall x hx])]
    · intro pre sc post hsplit hpre hcs
      subst hsplit
      rw [find?_append_first _ pre sc post hpre hcs]
      unfold try_get_config_with_sample_rate
      rfl

/-- C4 witness: an incompatible F64 default with a compatible I32 fallback
range not containing 16000 Hz, which gets selected at its max rate. -/
theorem wakeword_negotiation_witness :
    WakewordConfig.negotiateInputConfig devFallback = .ok ⟨2, 48000, .i32⟩ := by
  have h := (wakeword_negotiation devFallback ⟨1, 44100, .f64⟩
    [⟨1, 8000, 48000, .f64⟩, ⟨2, 22050, 48000, .i32⟩] rfl rfl).2 (by decide)
  have h2 := h.2 [⟨1, 8000, 48000, .f64⟩] ⟨2, 22050, 48000, .i32⟩ [] rfl
    (by decide) (by decide)
  rw [h2, if_neg (by decide)]
  rfl

/-- C4 counterexample: the default input configuration is two-channel, yet
`build` selects it, contradicting "selects the device's default input
configuration only if that default is single-channel". -/
theorem wakeword_accepts_multichannel_default :
    WakewordConfig.negotiateInputConfig devStereoDefault = .ok ⟨2, 44100, .i16⟩ ∧
    (⟨2, 44100, .i16⟩ : SupportedStreamConfig).channels ≠ 1 :=
  ⟨rfl, by decide⟩

/-! ## C5 -/

/-- C5 (amended): the two negotiation policies are NOT the same (see the
counterexample); they agree in accepting the device default when the
default is single-channel I16, the only case in which STTConfig::build
accepts a default. -/
theorem stt_wakeword_agree_on_i16_mono_default (dev : InputDevice)
    (d : SupportedStreamConfig)
    (hd : dev.defaultInputConfig = .ok d)
    (hf : d.sampleFormat = .i16) (hc : d.channels = 1) :
    WakewordConfig.negotiateInputConfig dev = .ok d ∧
    STTConfig.negotiateInputConfig dev = .ok d := by
  constructor
  · unfold WakewordConfig.negotiateInputConfig
    simp only [hd]
    rw [if_pos (by rw [hf]; rfl)]
  · unfold STTConfig.negotiateInputConfig
    simp only [hd]
    rw [if_pos ⟨hf, hc⟩]

/-- C5 witness: on a single-channel I16 default both policies take the
default. -/
theorem stt_wakeword_agree_witness :
    WakewordConfig.negotiateInputConfig devI16Mono = .ok ⟨1, 16000, .i16⟩ ∧
    STTConfig.negotiateInputConfig devI16Mono = .ok ⟨1, 16000, .i16⟩ :=
  stt_wakeword_agree_on_i16_mono_default devI16Mono ⟨1, 16000, .i16⟩ rfl rfl rfl

/-- C5 counterexample: on a device whose default (and only supported
format) is single-channel F32, the wakeword negotiation succeeds with the
default while the STT negotiation fails — the two policies accept
different sample formats, so they do not implement the same policy. -/
theorem stt_wakeword_policies_differ :
    WakewordConfig.negotiateInputConfig devF32Mono = .ok ⟨1, 48000, .f32⟩ ∧
    STTConfig.negotiateInputConfig devF32Mono = .error .failedGetSupportedInputConfig :=
  ⟨rfl, rfl⟩

/-! ## C7 -/

theorem sttChunkOutcome_running_iff (t : Nat) :
    sttChunkOutcome .running t = some .cancelled ↔ 21000 ≤ t := by
  simp only [sttChunkOutcome]
  by_cases ht : t / 1000 > 20
  · rw [if_pos ht]
    simp only [Option.some.injEq, true_iff]
    omega
  · rw [if_neg ht]
    constructor
    · intro h
      cases h
    · intro h
      exact absurd (by omega) ht

theorem sessionOutcome_running :
    ∀ trace : List (DecodingState × Nat), (∀ p ∈ trace, p.1 = .running) →
      (sessionOutcome trace = some .cancelled ∨ sessionOutcome trace = none) ∧
      (sessionOutcome trace = some .cancelled ↔ ∃ p ∈ trace, 21000 ≤ p.2) := by
  intro trace
  induction trace with
  | nil =>
    intro _
    refine ⟨Or.inr rfl, ?_⟩
    simp [sessionOutcome]
  | cons p rest ih =>
    intro h
    obtain ⟨s, t⟩ := p
    have hs : s = .running := h (s, t) (List.mem_cons_self _ _)
    subst hs
    have hrest := ih fun q hq => h q (List.mem_cons_of_mem _ hq)
    by_cases ht : 21000 ≤ t
    · have hout : sttChunkOutcome .running t = some .cancelled :=
        (sttChunkOutcome_running_iff t).mpr ht
      have : sessionOutcome ((DecodingState.running, t) :: rest) = some .cancelled := by
        simp only [sessionOutcome, hout]
      refine ⟨Or.inl this, ?_⟩
      rw [this]
      simp only [true_iff]
      exact ⟨(.running, t), List.mem_cons_self _ _, ht⟩
    · have hout : sttChunkOutcome .running t = none := by
        simp only [sttChunkOutcome]
        rw [if_neg (by omega)]
      have heq : sessionOutcome ((DecodingState.running, t) :: rest) = sessionOutcome rest := by
        simp only [sessionOutcome, hout]
      rw [heq]
      refine ⟨hrest.1, ?_⟩
      rw [hrest.2]
      constructor
      · rintro ⟨q, hq, hq21⟩
        exact ⟨q, List.mem_cons_of_mem _ hq, hq21⟩
      · rintro ⟨q, hq, hq21⟩
        rcases List.mem_cons.mp hq with rfl | hq
        · exact absurd hq21 ht
        · exact ⟨q, hq, hq21⟩

/-- C7 (amended): while the decoder keeps reporting Running, the session
yields `Cancelled` if and only if some chunk delivery happens at least 21
seconds after session start (`as_secs() > 20` truncates to whole seconds),
and yields nothing else; in particular no `Cancelled` is produced at
deliveries up to and including 20.999 s — the cancellation does not fire
as soon as 20 seconds have elapsed, only once the truncated second count
exceeds 20. The check runs on each chunk delivery in the Running state. -/
theorem stt_timeout_characterization (trace : List (DecodingState × Nat))
    (h : ∀ p ∈ trace, p.1 = .running) :
    (sessionOutcome trace = some .cancelled ↔ ∃ p ∈ trace, 21000 ≤ p.2) ∧
    (∀ res, sessionOutcome trace = some res → res = .cancelled) ∧
    (∀ t, sttChunkOutcome .running t = some .cancelled ↔ 21000 ≤ t) ∧
    (∀ t, t < 21000 → sttChunkOutcome .running t = none) := by
  obtain ⟨hshape, hiff⟩ := sessionOutcome_running trace h
  refine ⟨hiff, ?_, sttChunkOutcome_running_iff, ?_⟩
  · intro res hres
    rcases hshape with hc | hn
    · rw [hres] at hc
      exact Option.some.inj hc
    · rw [hres] at hn
      cases hn
  · intro t ht
    simp only [sttChunkOutcome]
    rw [if_neg (by omega)]

/-- C7 witness: a chunk at 20.5 s sends nothing; the chunk at 21 s cancels
the session. -/
theorem stt_timeout_witness :
    sessionOutcome [(.running, 20500), (.running, 21000)] = some .cancelled :=
  (stt_timeout_characterization [(.running, 20500), (.running, 21000)]
      (by decide)).1.mpr ⟨(.running, 21000), by simp, by omega⟩

/-- C7 counterexample: at a chunk delivered 20500 ms after session start —
20 seconds have elapsed — the callback sends nothing, and a session whose
only chunk arrives then produces no outcome at all, contradicting "yields
the terminal outcome Cancelled once 20 seconds have elapsed". -/
theorem stt_no_cancel_at_20500ms :
    sttChunkOutcome .running 20500 = none ∧
    sessionOutcome [(.running, 20500)] = none ∧
    20000 ≤ 20500 :=
  ⟨rfl, rfl, by omega⟩

/-! ## C8 -/

theorem mod_shift (n x s : Nat) : (x % n + s) % n = (x + s) % n := by
  conv_rhs => rw [← Nat.div_add_mod x n]
  rw [Nat.add_assoc, Nat.mul_add_mod]

theorem div_shift (n x s : Nat) (hn : 0 < n) :
    x / n + (x % n + s) / n = (x + s) / n := by
  conv_rhs => rw [← Nat.div_add_mod x n]
  rw [Nat.add_assoc, Nat.mul_add_div hn]

/-- The drain-and-score loop processes exactly `⌊len/n⌋` frames and leaves
the final `len mod n` samples buffered. -/
theorem detectLoop_spec {R S : Type _} (n : Nat) (step : R → List S → R × Option String)
    (hn : 0 < n) :
    ∀ (buf : List S) (r : R),
      (detectLoop n step r buf).2.2.1.length = buf.length / n ∧
      (detectLoop n step r buf).2.1 = buf.drop (n * (buf.length / n)) := by
  have main : ∀ (len : Nat) (buf : List S), buf.length = len → ∀ r : R,
      (detectLoop n step r buf).2.2.1.length = buf.length / n ∧
      (detectLoop n step r buf).2.1 = buf.drop (n * (buf.length / n)) := by
    intro len
    induction len using Nat.strong_induction_on with
    | _ len ih =>
      intro buf hlen r
      rw [detectLoop]
      split
      next hcond =>
        have hlt : (buf.drop n).length < len := by
          rw [List.length_drop]
          omega
        have hrec := ih (buf.drop n).length hlt (buf.drop n) rfl
          (step r (buf.take n)).1
        have hdiv : buf.length / n = (buf.length - n) / n + 1 :=
          Nat.div_eq_sub_div hn hcond.1
        constructor
        · simp only [List.length_cons]
          rw [(hrec).1, List.length_drop, hdiv]
        · rw [(hrec).2, List.drop_drop, List.length_drop, hdiv, Nat.mul_succ, Nat.add_comm]
      next hcond =>
        have hlt : buf.length < n := by omega
        rw [Nat.div_eq_of_lt hlt]
        simp
  intro buf r
  exact main buf.length buf rfl r

/-- Feeding chunks one callback at a time keeps, across the whole
delivery sequence, the frame count at `⌊total/n⌋` and the buffered
remainder at `total mod n`, provided the starting buffer is below one
frame. -/
theorem feedChunks_spec {R S : Type _} (n : Nat) (step : R → List S → R × Option String)
    (hn : 0 < n) :
    ∀ (chunks : List (List S)) (r : R) (buffer : List S), buffer.length < n →
      (feedChunks n step r buffer chunks).2.2.1.length
          = (buffer.length + (chunks.map List.length).sum) / n ∧
      (feedChunks n step r buffer chunks).2.1.length
          = (buffer.length + (chunks.map List.length).sum) % n := by
  intro chunks
  induction chunks with
  | nil =>
    intro r buffer hb
    simp only [feedChunks, List.map_nil, List.sum_nil, Nat.add_zero]
    exact ⟨(Nat.div_eq_of_lt hb).symm, (Nat.mod_eq_of_lt hb).symm⟩
  | cons c rest ih =>
    intro r buffer hb
    simp only [feedChunks, List.map_cons, List.sum_cons]
    have hrd := detectLoop_spec n step hn (buffer ++ c) r
    have hlen1 : (run_detection n step r c buffer).2.1.length
        = (buffer.length + c.length) % n := by
      unfold run_detection
      rw [hrd.2, List.length_drop, List.length_append]
      have := Nat.div_add_mod (buffer.length + c.length) n
      omega
    have hframes1 : (run_detection n step r c buffer).2.2.1.length
        = (buffer.length + c.length) / n := by
      unfold run_detection
      rw [hrd.1, List.length_append]
    have hlt1 : (run_detection n step r c buffer).2.1.length < n := by
      rw [hlen1]
      exact Nat.mod_lt _ hn
    obtain ⟨ihf, ihl⟩ := ih (run_detection n step r c buffer).1
      (run_detection n step r c buffer).2.1 hlt1
    constructor
    · rw [List.length_append, hframes1, ihf, hlen1,
        div_shift n (buffer.length + c.length) ((rest.map List.length).sum) hn,
        Nat.add_assoc]
    · rw [ihl, hlen1,
        mod_shift n (buffer.length + c.length) ((rest.map List.length).sum),
        Nat.add_assoc]

/-- C8: deliveries each smaller than one model frame whose sample counts
sum to exactly one frame make the detection loop score exactly one frame
and leave an empty buffer (a further chunk starts a fresh accumulation);
in general, each delivered chunk is appended to the buffer and the loop
drains and scores one `n`-sample frame per iteration while at least `n`
samples are buffered, leaving the remainder (< one frame) buffered. -/
theorem run_detection_framing {R S : Type _} (n : Nat)
    (step : R → List S → R × Option String) (hn : 0 < n) :
    (∀ (chunks : List (List S)) (r : R),
        (∀ c ∈ chunks, c.length < n) →
        (chunks.map List.length).sum = n →
        (feedChunks n step r [] chunks).2.2.1.length = 1 ∧
        (feedChunks n step r [] chunks).2.1 = []) ∧
    (∀ (r : R) (data buffer : List S),
        (run_detection n step r data buffer).2.2.1.length = (buffer ++ data).length / n ∧
        (run_detection n step r data buffer).2.1
          = (buffer ++ data).drop (n * ((buffer ++ data).length / n)) ∧
        (run_detection n step r data buffer).2.1.length < n) := by
  constructor
  · intro chunks r _hsmall hsum
    obtain ⟨hf, hl⟩ := feedChunks_spec n step hn chunks r [] (by simpa using hn)
    rw [hsum] at hf hl
    simp only [List.length_nil, Nat.zero_add] at hf hl
    refine ⟨by rw [hf, Nat.div_self hn], ?_⟩
    rw [Nat.mod_self] at hl
    exact List.length_eq_zero.mp hl
  · intro r data buffer
    have h := detectLoop_spec n step hn (buffer ++ data) r
    refine ⟨h.1, h.2, ?_⟩
    have hlen : (run_detection n step r data buffer).2.1.length
        = (buffer ++ data).length - n * ((buffer ++ data).length / n) := by
      unfold run_detection
      rw [h.2, List.length_drop]
    rw [hlen]
    have hdm := Nat.div_add_mod (buffer ++ data).length n
    have hml : (buffer ++ data).length % n < n := Nat.mod_lt _ hn
    omega

/-- C8 witness: frame size 3, chunks of 2 and 1 samples — exactly one
scoring call and an empty leftover buffer. -/
theorem run_detection_framing_witness :
    (0 : Nat) < 3 ∧
    (feedChunks 3 (fun (r : Unit) (_ : List Nat) => (r, none)) () [] [[1, 2], [3]]).2.2.1.length = 1 ∧
    (feedChunks 3 (fun (r : Unit) (_ : List Nat) => (r, none)) () [] [[1, 2], [3]]).2.1 = [] :=
  ⟨by omega,
    (run_detection_framing 3 (fun (r : Unit) (_ : List Nat) => (r, none)) (by omega)).1
      [[1, 2], [3]] () (by decide) (by decide)⟩

/-! ## C9 -/

/-- C9: wakeword events that arrive while the synthesizer reports
"speaking" are discarded by `Assistant::listen`: for each such event it
only calls `finish_speaking` (blocking until "not speaking") and re-enters
the receive loop, so no speech-recognition session and no intent
classification runs for any of them — the outcome and every further action
are exactly those of `listen` on the remaining trace, i.e. a fresh
wakeword detection is required before proceeding. -/
theorem listen_discards_wakewords_while_speaking {T : Type _} (wl : List String)
    (ir : IntentRecognizer T) (es : List ListenEvent) (rest : List WakewordStreamEvent)
    (hspeak : ∀ e ∈ es, e.isSpeaking = some true) :
    listen wl ir (es.map .ev ++ rest)
      = ((listen wl ir rest).1,
          List.replicate es.length .finishSpeaking ++ (listen wl ir rest).2) := by
  induction es with
  | nil => simp [List.replicate]
  | cons e es ih =>
    have he := hspeak e (List.mem_cons_self _ _)
    have ih2 := ih fun x hx => hspeak x (List.mem_cons_of_mem _ hx)
    rw [List.map_cons, List.cons_append]
    simp only [listen, he, ih2, List.length_cons, List.replicate_succ, List.cons_append]

/-- C9 witness: a single wakeword event delivered while speaking leads to
`finish_speaking` followed by blocking on the next wakeword — no speech
recognition session is opened. -/
theorem listen_discards_witness :
    speakingEvent.isSpeaking = some true ∧
    listen ["pizza"] rOneExample [.ev speakingEvent] = (.blocked, [.finishSpeaking]) := by
  refine ⟨rfl, ?_⟩
  have h := listen_discards_wakewords_while_speaking ["pizza"] rOneExample
    [speakingEvent] [] (by intro e he; rw [List.mem_singleton] at he; rw [he]; rfl)
  simpa [listen] using h

end Raspberry
